import Mathlib

/-!
Verification of the go-vcr cassette store (`cassette/cassette.go`).

The Go source is shallowly embedded: each Go function becomes a Lean
function over explicit state.  Go maps (`url.Values`, `http.Header`) are
modelled as association lists (Go map key order is not semantic), the Go
`int` as `Int`, byte strings on disk as a type distinguishing contents
that parse as a JSON document from contents that do not (the parsing
itself is done by the external `encoding/json` library), and the
filesystem as an explicit record of files and directories threaded through
`Save` and `Load`.
-/

namespace VCR

/-- Model of the Go `Request` struct (cassette.go lines 52-67): a client
request as recorded in the cassette file.  Field order and JSON tag names
follow the Go declaration: body, form, headers, url, method. -/
structure Request where
  Body : String
  Form : List (String × List String)
  Headers : List (String × List String)
  URL : String
  Method : String
deriving DecidableEq, Repr

/-- Model of the Go `Response` struct (cassette.go lines 71-83). -/
structure Response where
  Body : String
  Headers : List (String × List String)
  Status : String
  Code : Int
deriving DecidableEq, Repr

/-- Model of the Go `Interaction` struct (cassette.go lines 87-90): a pair
of request/response for a single HTTP interaction.  The embedded fields
carry the JSON tags "request" and "response". -/
structure Interaction where
  Request : VCR.Request
  Response : VCR.Response
deriving DecidableEq, Repr

/-- Model of the live `*http.Request` as far as the cassette package reads
it: `Method`, `URL.String()` (kept as the pre-rendered string `URLString`,
since `url.URL` is an external opaque carrier), plus the header, form and
body data that `DefaultMatcher` deliberately ignores. -/
structure HTTPRequest where
  Method : String
  URLString : String
  Header : List (String × List String)
  Form : List (String × List String)
  Body : String
deriving DecidableEq, Repr

/-- The Go errors surfaced by the cassette package: the package-level
`ErrInteractionNotFound` (cassette.go line 47), and the errors produced by
the external collaborators `ioutil.ReadFile` and `json.Unmarshal` that
`Load` passes through. -/
inductive GoError where
  | ErrInteractionNotFound
  | ReadFileError
  | UnmarshalSyntaxError
  | UnmarshalTypeError
deriving DecidableEq, Repr

/-- Model of the Go `Cassette` struct (cassette.go lines 104-120).  The
JSON tags: `Name`, `File` and `Matcher` carry `json:"-"` (never
serialized), `Version` is `json:"version"`, `Interactions` is
`json:"interactions"`.  The embedded `sync.RWMutex` has no exported
fields and contributes nothing to the data model; locking is discussed at
the operations below. -/
structure Cassette where
  Name : String
  File : String
  Version : Int
  Interactions : List Interaction
  Matcher : HTTPRequest → Request → Bool

/-- `DefaultMatcher` (cassette.go lines 99-101):
`r.Method == i.Method && r.URL.String() == i.URL`. -/
def DefaultMatcher (r : HTTPRequest) (i : Request) : Bool :=
  r.Method == i.Method && r.URLString == i.URL

/-- `New` (cassette.go lines 123-133): a fresh cassette with the given
name, file `name + ".json"`, version `cassetteFormatV1 = 1`, an empty
interaction slice, and `DefaultMatcher`.  The Go function performs no
I/O, which the embedding reflects by giving it no filesystem argument. -/
def New (name : String) : Cassette :=
  { Name := name
    File := name ++ ".json"
    Version := 1
    Interactions := []
    Matcher := DefaultMatcher }

/-- `AddInteraction` (cassette.go lines 149-153): appends an interaction
to the cassette under the write lock. -/
def AddInteraction (c : Cassette) (i : Interaction) : Cassette :=
  { c with Interactions := c.Interactions ++ [i] }

/-- `GetInteraction` (cassette.go lines 156-166): under the read lock,
iterate over `c.Interactions` in order and return the first interaction
whose `Request` the cassette's `Matcher` accepts; if none matches, return
`ErrInteractionNotFound`.  The Go body contains no assignment to
`c.Interactions` (and holds only `RLock`), so the cassette state is
unchanged by the call. -/
def GetInteraction (c : Cassette) (r : HTTPRequest) : Except GoError Interaction :=
  match c.Interactions.find? (fun i => c.Matcher r i.Request) with
  | some i => .ok i
  | none => .error .ErrInteractionNotFound

/-- State-passing form of `GetInteraction`: the Go method's receiver after
the call paired with its return value.  Since the method only reads, the
post-state is the pre-state. -/
def getInteractionS (c : Cassette) (r : HTTPRequest) : Cassette × Except GoError Interaction :=
  (c, GetInteraction c r)

/-- `n` successive lookups for the same request, each one starting from
the cassette state the previous one left behind.  Under the cassette's
lock any concurrent schedule of read-only lookups is equivalent to some
serial order, which this models. -/
def lookupN : Nat → Cassette → HTTPRequest → Cassette × List (Except GoError Interaction)
  | 0, c, _ => (c, [])
  | n + 1, c, r =>
    let p := getInteractionS c r
    let q := lookupN n p.1 r
    (q.1, p.2 :: q.2)

/-! ## The persisted JSON document

`Save` serializes the cassette with `json.MarshalIndent` and `Load`
decodes with `json.Unmarshal`.  The document is modelled as a JSON value
tree (strings, integer numbers, arrays, objects with fields in document
order cover every value these structs produce and every case the claims
exercise). -/

/-- A JSON document value. -/
inductive JVal where
  | str : String → JVal
  | num : Int → JVal
  | arr : List JVal → JVal
  | obj : List (String × JVal) → JVal

/-- The top-level keys of a document. -/
def topKeys : JVal → List String
  | .obj fields => fields.map Prod.fst
  | _ => []

/-- Marshalling of a Go `map[string][]string` (`url.Values`,
`http.Header`): a JSON object mapping each key to an array of strings. -/
def encodeMultimap (m : List (String × List String)) : JVal :=
  .obj (m.map fun p => (p.1, .arr (p.2.map .str)))

/-- Marshalling of `Request` per its JSON tags, fields in Go declaration
order. -/
def encodeRequest (q : Request) : JVal :=
  .obj [("body", .str q.Body), ("form", encodeMultimap q.Form),
        ("headers", encodeMultimap q.Headers), ("url", .str q.URL),
        ("method", .str q.Method)]

/-- Marshalling of `Response` per its JSON tags. -/
def encodeResponse (s : Response) : JVal :=
  .obj [("body", .str s.Body), ("headers", encodeMultimap s.Headers),
        ("status", .str s.Status), ("code", .num s.Code)]

/-- Marshalling of `Interaction`: its embedded fields carry tags
"request" and "response". -/
def encodeInteraction (i : Interaction) : JVal :=
  .obj [("request", encodeRequest i.Request), ("response", encodeResponse i.Response)]

/-- `json.MarshalIndent(c, "", "  ")` applied to a `*Cassette`: only the
tagged fields `version` and `interactions` appear; `Name`, `File` and
`Matcher` carry `json:"-"` and the embedded mutex has no exported
fields. -/
def marshalCassette (c : Cassette) : JVal :=
  .obj [("version", .num c.Version),
        ("interactions", .arr (c.Interactions.map encodeInteraction))]

/-- Decoding a JSON value into a Go string field. -/
def decodeStr : JVal → Option String
  | .str s => some s
  | _ => none

/-- Decoding a list of JSON values into a list of strings, failing on the
first non-string element. -/
def decodeStrs : List JVal → Option (List String)
  | [] => some []
  | v :: vs =>
    match decodeStr v, decodeStrs vs with
    | some s, some ss => some (s :: ss)
    | _, _ => none

/-- Decoding a JSON array of strings into `[]string`. -/
def decodeStrList : JVal → Option (List String)
  | .arr xs => decodeStrs xs
  | _ => none

/-- Decoding the fields of a JSON object into `map[string][]string`
entries. -/
def decodeEntries : List (String × JVal) → Option (List (String × List String))
  | [] => some []
  | p :: ps =>
    match decodeStrList p.2, decodeEntries ps with
    | some l, some rest => some ((p.1, l) :: rest)
    | _, _ => none

/-- Decoding a JSON object into a `map[string][]string`. -/
def decodeMultimap : JVal → Option (List (String × List String))
  | .obj fields => decodeEntries fields
  | _ => none

/-- The zero value of `Request`, which `json.Unmarshal` starts from when
filling a fresh slice element. -/
def zeroRequest : Request :=
  { Body := "", Form := [], Headers := [], URL := "", Method := "" }

/-- The zero value of `Response`. -/
def zeroResponse : Response :=
  { Body := "", Headers := [], Status := "", Code := 0 }

/-- The zero value of `Interaction`. -/
def zeroInteraction : Interaction :=
  { Request := zeroRequest, Response := zeroResponse }

/-- One JSON object field applied to a `Request` being decoded: known tags
set the corresponding field, unknown keys are ignored (forward
compatibility of `encoding/json`), a type mismatch fails. -/
def updateRequest (q : Request) : String × JVal → Option Request
  | ("body", v) => (decodeStr v).map fun s => { q with Body := s }
  | ("form", v) => (decodeMultimap v).map fun m => { q with Form := m }
  | ("headers", v) => (decodeMultimap v).map fun m => { q with Headers := m }
  | ("url", v) => (decodeStr v).map fun s => { q with URL := s }
  | ("method", v) => (decodeStr v).map fun s => { q with Method := s }
  | _ => some q

/-- One JSON object field applied to a `Response` being decoded. -/
def updateResponse (s : Response) : String × JVal → Option Response
  | ("body", v) => (decodeStr v).map fun x => { s with Body := x }
  | ("headers", v) => (decodeMultimap v).map fun m => { s with Headers := m }
  | ("status", v) => (decodeStr v).map fun x => { s with Status := x }
  | ("code", v) =>
    match v with
    | .num n => some { s with Code := n }
    | _ => none
  | _ => some s

/-- Decoding a JSON value into a `Request` (fields processed in document
order over the zero value). -/
def decodeRequest : JVal → Option Request
  | .obj fields => fields.foldlM updateRequest zeroRequest
  | _ => none

/-- Decoding a JSON value into a `Response`. -/
def decodeResponse : JVal → Option Response
  | .obj fields => fields.foldlM updateResponse zeroResponse
  | _ => none

/-- One JSON object field applied to an `Interaction` being decoded. -/
def updateInteraction (i : Interaction) : String × JVal → Option Interaction
  | ("request", v) => (decodeRequest v).map fun q => { i with Request := q }
  | ("response", v) => (decodeResponse v).map fun s => { i with Response := s }
  | _ => some i

/-- Decoding a JSON value into an `Interaction`.  Partial fills inside a
single failing element are abstracted to the element's zero value by the
caller; no claim exercises that corner. -/
def decodeInteraction : JVal → Option Interaction
  | .obj fields => fields.foldlM updateInteraction zeroInteraction
  | _ => none

/-- One top-level field of the cassette document applied to the cassette
being decoded, with `encoding/json`'s error discipline: the first error is
recorded, decoding continues, unknown keys are ignored, and the untagged
fields (`Name`, `File`, `Matcher`, tag `-`) are never written. -/
def decodeCassetteStep (acc : Cassette × Option GoError) (kv : String × JVal) :
    Cassette × Option GoError :=
  match kv with
  | ("version", .num n) => ({ acc.1 with Version := n }, acc.2)
  | ("version", _) => (acc.1, acc.2 <|> some .UnmarshalTypeError)
  | ("interactions", .arr xs) =>
    let ys := xs.map decodeInteraction
    ({ acc.1 with Interactions := ys.map fun o => o.getD zeroInteraction },
      if ys.all Option.isSome then acc.2 else acc.2 <|> some .UnmarshalTypeError)
  | ("interactions", _) => (acc.1, acc.2 <|> some .UnmarshalTypeError)
  | _ => acc

/-- Decoding a cassette document into an existing cassette (the second
half of `json.Unmarshal(data, &c)` once the bytes parsed). -/
def decodeCassette (v : JVal) (c : Cassette) : Cassette × Option GoError :=
  match v with
  | .obj fields => fields.foldl decodeCassetteStep (c, none)
  | _ => (c, some .UnmarshalTypeError)

/-! ## Filesystem model -/

/-- The contents of a file: either bytes that parse as a JSON document, or
bytes that do not (on which `json.Unmarshal` reports a syntax error before
writing any field). -/
inductive Bytes where
  | json : JVal → Bytes
  | invalid : String → Bytes

/-- The filesystem visible to `Save` and `Load`: files by path and the set
of existing directories. -/
structure FS where
  files : List (String × Bytes)
  dirs : List String

/-- Reading a file (`ioutil.ReadFile`): the most recent contents written
at the path, if any. -/
def FS.read (fs : FS) (path : String) : Option Bytes :=
  fs.files.lookup path

/-- Writing a file (`os.Create` + `Write`): truncate-and-write at the
path. -/
def FS.write (fs : FS) (path : String) (b : Bytes) : FS :=
  { fs with files := (path, b) :: fs.files }

/-- `filepath.Dir`: the path up to the last separator, `"."` when there is
none. -/
def dirOf (path : String) : String :=
  let parts := path.splitOn "/"
  if parts.length ≤ 1 then "." else String.intercalate "/" parts.dropLast

/-- `json.Unmarshal(data, &c)`: a syntax error writes nothing; otherwise
the parsed document is decoded field by field into `c`. -/
def unmarshal (b : Bytes) (c : Cassette) : Cassette × Option GoError :=
  match b with
  | .invalid _ => (c, some .UnmarshalSyntaxError)
  | .json v => decodeCassette v c

/-- `Save` (cassette.go lines 169-204): under the read lock, if there are
no interactions return `nil` at once (no filesystem operation); otherwise
ensure the cassette file's directory exists (`os.Stat` + `os.MkdirAll`),
marshal the cassette, and write the bytes at `c.File`.  The external
failure modes of `MkdirAll`, `Create` and `Write` (environment faults) are
not modelled; marshalling these types cannot fail. -/
def Save (c : Cassette) (fs : FS) : FS × Option GoError :=
  if c.Interactions.isEmpty then (fs, none)
  else
    let dir := dirOf c.File
    let fs1 := if fs.dirs.contains dir then fs else { fs with dirs := dir :: fs.dirs }
    (fs1.write c.File (.json (marshalCassette c)), none)

/-- `Load` (cassette.go lines 136-146): build `New name`, read `c.File`;
on a read failure return `(nil, err)`; otherwise return the cassette
`json.Unmarshal` left behind together with its error, which is `nil` on
success. -/
def Load (fs : FS) (name : String) : Option Cassette × Option GoError :=
  let c := New name
  match fs.read c.File with
  | none => (none, some .ReadFileError)
  | some b =>
    let p := unmarshal b c
    (some p.1, p.2)

/-! ## Concrete example data used by counterexamples and witnesses -/

/-- A recorded request for `GET http://example.com/`. -/
def exReq : Request :=
  { Body := "", Form := [], Headers := [("Accept", ["*/*"])],
    URL := "http://example.com/", Method := "GET" }

/-- A recorded response. -/
def exResp : Response :=
  { Body := "hello", Headers := [("Content-Type", ["text/plain"])],
    Status := "200 OK", Code := 200 }

/-- A recorded interaction. -/
def exInteraction : Interaction :=
  { Request := exReq, Response := exResp }

/-- A live request that `DefaultMatcher` accepts against `exReq`. -/
def exLive : HTTPRequest :=
  { Method := "GET", URLString := "http://example.com/",
    Header := [], Form := [], Body := "different body" }

/-- A live request with the same method and URL as `exLive` but different
headers, form values and body. -/
def exLive2 : HTTPRequest :=
  { Method := "GET", URLString := "http://example.com/",
    Header := [("X-Extra", ["yes"])], Form := [("a", ["1"])], Body := "other" }

/-- A live request matching no recorded interaction. -/
def exLiveMiss : HTTPRequest :=
  { Method := "POST", URLString := "http://example.com/",
    Header := [], Form := [], Body := "" }

/-- A cassette holding exactly one interaction that matches `exLive`. -/
def exCassette : Cassette :=
  { New "fixtures/example" with Interactions := [exInteraction] }

/-- A filesystem whose fixture file for `"f"` holds a well-formed document
with version 2 and no interactions. -/
def fsVersion2 : FS :=
  { files := [("f.json", .json (.obj [("version", .num 2), ("interactions", .arr [])]))],
    dirs := [] }

/-- A filesystem whose fixture file for `"f"` is readable but not valid
JSON. -/
def fsGarbage : FS :=
  { files := [("f.json", .invalid "not json at all")], dirs := [] }

/-! ## Helper lemmas -/

/-- A successful `find?` splits the list at the first satisfying element. -/
theorem find?_split {α : Type} (p : α → Bool) (l : List α) (a : α)
    (h : l.find? p = some a) :
    ∃ pre post, l = pre ++ a :: post ∧ (∀ x ∈ pre, p x = false) ∧ p a = true := by
  induction l with
  | nil => simp [List.find?] at h
  | cons x xs ih =>
    by_cases hx : p x
    · refine ⟨[], xs, ?_, by simp, ?_⟩
      · simp [List.find?, hx] at h
        simp [h]
      · simp [List.find?, hx] at h
        simpa [h] using hx
    · have h' : xs.find? p = some a := by
        simpa [List.find?, hx] using h
      obtain ⟨pre, post, heq, hpre, hpa⟩ := ih h'
      exact ⟨x :: pre, post, by simp [heq], by
        intro y hy
        rcases List.mem_cons.mp hy with rfl | hy'
        · simpa using hx
        · exact hpre y hy', hpa⟩

theorem decodeStrList_encode (l : List String) :
    decodeStrList (.arr (l.map .str)) = some l := by
  induction l with
  | nil => rfl
  | cons x xs ih =>
    simp only [decodeStrList] at ih ⊢
    simp [decodeStrs, decodeStr, ih]

theorem decodeMultimap_encode (m : List (String × List String)) :
    decodeMultimap (encodeMultimap m) = some m := by
  induction m with
  | nil => rfl
  | cons p rest ih =>
    simp only [decodeMultimap, encodeMultimap, List.map_cons] at ih ⊢
    simp [decodeEntries, decodeStrList_encode, ih]

theorem decodeRequest_encode (q : Request) :
    decodeRequest (encodeRequest q) = some q := by
  obtain ⟨b, f, h, u, m⟩ := q
  simp [decodeRequest, encodeRequest, List.foldlM, updateRequest, decodeStr,
    decodeMultimap_encode, zeroRequest]

theorem decodeResponse_encode (s : Response) :
    decodeResponse (encodeResponse s) = some s := by
  obtain ⟨b, h, st, cd⟩ := s
  simp [decodeResponse, encodeResponse, List.foldlM, updateResponse, decodeStr,
    decodeMultimap_encode, zeroResponse]

theorem decodeInteraction_encode (i : Interaction) :
    decodeInteraction (encodeInteraction i) = some i := by
  obtain ⟨q, s⟩ := i
  simp [decodeInteraction, encodeInteraction, List.foldlM, updateInteraction,
    decodeRequest_encode, decodeResponse_encode, zeroInteraction]

theorem map_decodeInteraction_encode (l : List Interaction) :
    (l.map encodeInteraction).map decodeInteraction = l.map some := by
  rw [List.map_map]
  exact List.map_congr_left fun i _ => decodeInteraction_encode i

theorem decodeCassette_marshal (c c0 : Cassette) :
    decodeCassette (marshalCassette c) c0 =
      ({ c0 with Version := c.Version, Interactions := c.Interactions }, none) := by
  have h1 : (c.Interactions.map some).map
      (fun o : Option Interaction => o.getD zeroInteraction) = c.Interactions := by
    rw [List.map_map]
    exact (List.map_congr_left fun i _ => rfl).trans (List.map_id _)
  have h2 : (c.Interactions.map some).all Option.isSome = true := by
    simp [List.all_eq_true]
  simp only [decodeCassette, marshalCassette, List.foldl_cons, List.foldl_nil,
    decodeCassetteStep, map_decodeInteraction_encode, h1, h2]
  simp

/-- Every decoding step leaves the untagged fields alone. -/
theorem decodeCassetteStep_untagged (acc : Cassette × Option GoError)
    (kv : String × JVal) :
    (decodeCassetteStep acc kv).1.Name = acc.1.Name ∧
    (decodeCassetteStep acc kv).1.File = acc.1.File ∧
    (decodeCassetteStep acc kv).1.Matcher = acc.1.Matcher := by
  obtain ⟨k, v⟩ := kv
  unfold decodeCassetteStep
  split <;> exact ⟨rfl, rfl, rfl⟩

theorem foldl_decodeCassetteStep_untagged (fields : List (String × JVal)) :
    ∀ acc : Cassette × Option GoError,
      (fields.foldl decodeCassetteStep acc).1.Name = acc.1.Name ∧
      (fields.foldl decodeCassetteStep acc).1.File = acc.1.File ∧
      (fields.foldl decodeCassetteStep acc).1.Matcher = acc.1.Matcher := by
  induction fields with
  | nil => intro acc; exact ⟨rfl, rfl, rfl⟩
  | cons kv rest ih =>
    intro acc
    have h1 := decodeCassetteStep_untagged acc kv
    have h2 := ih (decodeCassetteStep acc kv)
    simp only [List.foldl_cons]
    exact ⟨h2.1.trans h1.1, h2.2.1.trans h1.2.1, h2.2.2.trans h1.2.2⟩

theorem unmarshal_untagged (b : Bytes) (c : Cassette) :
    (unmarshal b c).1.Name = c.Name ∧ (unmarshal b c).1.File = c.File ∧
    (unmarshal b c).1.Matcher = c.Matcher := by
  cases b with
  | invalid s => exact ⟨rfl, rfl, rfl⟩
  | json v =>
    cases v with
    | obj fields => exact foldl_decodeCassetteStep_untagged fields (c, none)
    | str s => exact ⟨rfl, rfl, rfl⟩
    | num n => exact ⟨rfl, rfl, rfl⟩
    | arr xs => exact ⟨rfl, rfl, rfl⟩

/-! ## Claim theorems -/

/-- C7: `New name` returns a cassette whose name is `name`, whose storage
path is the fixture name with the fixed `.json` extension appended, whose
format version equals 1, whose interaction sequence is empty and whose
Matcher is the default matcher; the embedding of `New` is a pure function
(no filesystem argument), reflecting that the Go function performs no
I/O. -/
theorem new_cassette_spec (name : String) :
    (New name).Name = name ∧ (New name).File = name ++ ".json" ∧
    (New name).Version = 1 ∧ (New name).Interactions = [] ∧
    (New name).Matcher = DefaultMatcher :=
  ⟨rfl, rfl, rfl, rfl, rfl⟩

/-- C2: `DefaultMatcher r i` is true exactly when the method strings and
the full URL strings agree, and its value is unchanged under any change of
the headers, form values or bodies of either side (stated as invariance
between any two live requests and any two recorded requests agreeing on
method and URL). -/
theorem defaultMatcher_method_url_only (r r' : HTTPRequest) (i i' : Request)
    (hm : r.Method = r'.Method) (hu : r.URLString = r'.URLString)
    (him : i.Method = i'.Method) (hiu : i.URL = i'.URL) :
    (DefaultMatcher r i = true ↔ (r.Method = i.Method ∧ r.URLString = i.URL)) ∧
    DefaultMatcher r i = DefaultMatcher r' i' := by
  constructor
  · simp [DefaultMatcher]
  · simp only [DefaultMatcher, hm, hu, him, hiu]

/-- C2 witness: concrete live requests `exLive` and `exLive2` differ in
headers, form and body yet match `exReq` the same way. -/
theorem defaultMatcher_method_url_only_witness :
    (DefaultMatcher exLive exReq = true ↔
      (exLive.Method = exReq.Method ∧ exLive.URLString = exReq.URL)) ∧
    DefaultMatcher exLive exReq = DefaultMatcher exLive2 exReq :=
  defaultMatcher_method_url_only exLive exLive2 exReq exReq rfl rfl rfl rfl

/-- C1 counterexample: the claim says a second identical lookup after one
successful lookup fails with NotFound.  On the concrete cassette holding
exactly one interaction matched by `exLive`, `GetInteraction` succeeds,
leaves the cassette unchanged, and an identical second lookup succeeds
again with the very same interaction. -/
theorem getInteraction_consume_counterexample :
    getInteractionS exCassette exLive = (exCassette, .ok exInteraction) ∧
    (getInteractionS (getInteractionS exCassette exLive).1 exLive).2 =
      .ok exInteraction ∧
    (getInteractionS (getInteractionS exCassette exLive).1 exLive).2 ≠
      .error .ErrInteractionNotFound := by
  refine ⟨rfl, rfl, fun h => ?_⟩
  have h' : (Except.ok exInteraction : Except GoError Interaction) =
      .error .ErrInteractionNotFound := h
  exact Except.noConfusion h'

/-- C1 (amended): `GetInteraction` scans the interaction sequence in
order and returns the first interaction whose recorded request the active
Matcher accepts, but it does not remove it: the sequence is unchanged, and
a subsequent identical lookup succeeds again and returns the same
interaction rather than failing with NotFound. -/
theorem getInteraction_first_match_no_removal (c : Cassette) (r : HTTPRequest)
    (i : Interaction) (h : (getInteractionS c r).2 = .ok i) :
    (getInteractionS c r).1 = c ∧
    (∃ pre post, c.Interactions = pre ++ i :: post ∧
      (∀ j ∈ pre, c.Matcher r j.Request = false) ∧
      c.Matcher r i.Request = true) ∧
    getInteractionS (getInteractionS c r).1 r = (c, .ok i) := by
  cases hfind : c.Interactions.find? (fun j => c.Matcher r j.Request) with
  | none => simp [getInteractionS, GetInteraction, hfind] at h
  | some j =>
    have hji : j = i := by
      simpa [getInteractionS, GetInteraction, hfind] using h
    subst hji
    refine ⟨rfl, ?_, ?_⟩
    · obtain ⟨pre, post, heq, hpre, hpj⟩ :=
        find?_split (fun j => c.Matcher r j.Request) c.Interactions j hfind
      exact ⟨pre, post, heq, hpre, hpj⟩
    · simp [getInteractionS, GetInteraction, hfind]

/-- C1 witness: the amended statement at the concrete cassette. -/
theorem getInteraction_first_match_no_removal_witness :
    (getInteractionS exCassette exLive).1 = exCassette ∧
    (∃ pre post, exCassette.Interactions = pre ++ exInteraction :: post ∧
      (∀ j ∈ pre, exCassette.Matcher exLive j.Request = false) ∧
      exCassette.Matcher exLive exInteraction.Request = true) ∧
    getInteractionS (getInteractionS exCassette exLive).1 exLive =
      (exCassette, .ok exInteraction) :=
  getInteraction_first_match_no_removal exCassette exLive exInteraction rfl

/-- C6: when no interaction in the sequence is accepted by the active
Matcher, `GetInteraction` fails with `ErrInteractionNotFound` and the
cassette state (in particular the interaction sequence and its order) is
exactly what it was before the call. -/
theorem getInteraction_notFound_state (c : Cassette) (r : HTTPRequest)
    (h : ∀ i ∈ c.Interactions, c.Matcher r i.Request = false) :
    getInteractionS c r = (c, .error .ErrInteractionNotFound) := by
  have hfind : c.Interactions.find? (fun i => c.Matcher r i.Request) = none :=
    List.find?_eq_none.mpr fun x hx => by simp [h x hx]
  simp [getInteractionS, GetInteraction, hfind]

/-- C6 witness: a POST request matches nothing in the concrete cassette. -/
theorem getInteraction_notFound_state_witness :
    getInteractionS exCassette exLiveMiss =
      (exCassette, .error .ErrInteractionNotFound) :=
  getInteraction_notFound_state exCassette exLiveMiss (by decide)

/-- C3: saving a cassette with an empty interaction sequence returns
success immediately: the filesystem value (files and directories alike,
hence any existing fixture file at the cassette's path) is returned
unchanged. -/
theorem save_empty_is_noop (c : Cassette) (fs : FS) (h : c.Interactions = []) :
    Save c fs = (fs, none) := by
  simp [Save, h]

/-- C3 witness: saving a fresh cassette over a filesystem that already
holds a fixture file leaves that filesystem untouched. -/
theorem save_empty_is_noop_witness :
    Save (New "f") fsGarbage = (fsGarbage, none) :=
  save_empty_is_noop (New "f") fsGarbage rfl

/-- C9 counterexample: the claim says that with M = 1 matching
interaction, N = 2 lookups yield exactly 1 success and 1 NotFound.  In
the code, lookups do not consume: both of 2 successive lookups (one legal
serialization of 2 concurrent lookups, each permitted in turn by the
read-write lock) succeed with the same interaction, so the success count
is 2, not 1. -/
theorem concurrent_lookup_counterexample :
    (lookupN 2 exCassette exLive).2 = [.ok exInteraction, .ok exInteraction] ∧
    ((lookupN 2 exCassette exLive).2.countP fun e => e.toOption.isSome) = 2 ∧
    ((lookupN 2 exCassette exLive).2.countP fun e => e.toOption.isSome) ≠ 1 := by
  refine ⟨rfl, rfl, by decide⟩

/-- C9 (amended): `GetInteraction` mutates nothing (it holds only the
read lock and removes nothing), so any number of lookups for a request
matched by at least one stored interaction all succeed: after N lookups
the cassette is unchanged and all N results are successes — no interaction
is ever consumed, and no lookup fails, however many run. -/
theorem lookups_never_consume (n : Nat) (c : Cassette) (r : HTTPRequest)
    (h : ∃ i ∈ c.Interactions, c.Matcher r i.Request = true) :
    (lookupN n c r).1 = c ∧ (lookupN n c r).2.length = n ∧
    ∀ e ∈ (lookupN n c r).2, ∃ i, e = .ok i := by
  obtain ⟨i, hi, hmi⟩ := h
  have hs : ∃ j, c.Interactions.find? (fun k => c.Matcher r k.Request) = some j := by
    cases hf : c.Interactions.find? (fun k => c.Matcher r k.Request) with
    | some j => exact ⟨j, rfl⟩
    | none => exact absurd hmi (by simpa using List.find?_eq_none.mp hf i hi)
  obtain ⟨j, hj⟩ := hs
  induction n with
  | zero => exact ⟨rfl, rfl, fun e he => absurd he (by simp [lookupN])⟩
  | succ n ih =>
    obtain ⟨ih1, ih2, ih3⟩ := ih
    refine ⟨?_, ?_, ?_⟩
    · simpa [lookupN, getInteractionS] using ih1
    · simpa [lookupN, getInteractionS] using ih2
    · intro e he
      simp only [lookupN, getInteractionS] at he
      rcases List.mem_cons.mp he with rfl | he'
      · exact ⟨j, by simp [GetInteraction, hj]⟩
      · exact ih3 e he'

/-- C9 witness: the amended statement at the concrete cassette with two
lookups. -/
theorem lookups_never_consume_witness :
    (lookupN 2 exCassette exLive).1 = exCassette ∧
    (lookupN 2 exCassette exLive).2.length = 2 ∧
    ∀ e ∈ (lookupN 2 exCassette exLive).2, ∃ i, e = .ok i :=
  lookups_never_consume 2 exCassette exLive ⟨exInteraction, by decide, by decide⟩

/-- C4 counterexample: the claim says a well-formed document with a
version other than 1 fails to load.  On a fixture whose document carries
version 2, `Load` returns a usable cassette with `Version = 2` and no
error: the code contains no version check. -/
theorem load_unsupported_version_counterexample :
    Load fsVersion2 "f" = (some { New "f" with Version := 2 }, none) ∧
    ((2 : Int) = 1 → False) := by
  refine ⟨rfl, by decide⟩

/-- C4 (amended): `Load` performs no validation of the version field:
a well-formed document with any version value (supported or not) loads
without error, and the cassette's `Version` is set to the document's
value. -/
theorem load_ignores_version_value (name : String) (ver : Int)
    (ints : List Interaction) (fs : FS)
    (h : fs.read (name ++ ".json") = some (.json (.obj
      [("version", .num ver),
       ("interactions", .arr (ints.map encodeInteraction))]))) :
    Load fs name = (some { New name with Version := ver, Interactions := ints },
      none) := by
  have hd : decodeCassette (JVal.obj
      [("version", .num ver),
       ("interactions", .arr (ints.map encodeInteraction))]) (New name) =
      ({ New name with Version := ver, Interactions := ints }, none) :=
    decodeCassette_marshal { New name with Version := ver, Interactions := ints }
      (New name)
  have hf : (New name).File = name ++ ".json" := rfl
  simp only [Load]
  rw [hf, h]
  simp only [New] at hd
  simp [unmarshal, hd, New]

/-- C4 witness: the amended statement at the version-2 fixture. -/
theorem load_ignores_version_value_witness :
    Load fsVersion2 "f" =
      (some { New "f" with Version := 2, Interactions := [] }, none) :=
  load_ignores_version_value "f" 2 [] fsVersion2 rfl

/-- C5: for a non-empty cassette whose file is the fixture name plus the
fixed extension, `Save` succeeds and a `Load` of the same fixture name
from the resulting filesystem yields a cassette with the same version and
the same interaction sequence, field for field and in the same order
(the model's interaction equality is full structural equality of request
method, URL, headers, form, body and response status, code, headers,
body); moreover the persisted document's top-level keys are exactly
`version` and `interactions`, and the document depends on nothing but the
version and the interactions — in particular not on `Name`, `File` or
`Matcher`. -/
theorem save_load_roundtrip (c : Cassette) (fs : FS) (name : String)
    (hfile : c.File = name ++ ".json") (hne : c.Interactions ≠ []) :
    (Save c fs).2 = none ∧
    (∃ c', Load (Save c fs).1 name = (some c', none) ∧
      c'.Version = c.Version ∧ c'.Interactions = c.Interactions ∧
      c'.Name = name ∧ c'.File = name ++ ".json" ∧
      c'.Matcher = DefaultMatcher) ∧
    topKeys (marshalCassette c) = ["version", "interactions"] ∧
    (∀ c₂ : Cassette, c₂.Version = c.Version → c₂.Interactions = c.Interactions →
      marshalCassette c₂ = marshalCassette c) := by
  have hE : c.Interactions.isEmpty = false := by
    cases hc : c.Interactions with
    | nil => exact absurd hc hne
    | cons a l => rfl
  have hfiles : ∀ fs1 : FS, (Save c fs).1 = fs1 →
      fs1.files = (c.File, .json (marshalCassette c)) :: fs.files := by
    intro fs1 h1
    rw [← h1]
    simp only [Save, hE, Bool.false_eq_true, if_false, FS.write]
    split <;> rfl
  refine ⟨by simp [Save, hE], ?_, rfl, ?_⟩
  · refine ⟨{ New name with Version := c.Version, Interactions := c.Interactions },
      ?_, rfl, rfl, rfl, rfl, rfl⟩
    have hread : (Save c fs).1.read (name ++ ".json") =
        some (.json (marshalCassette c)) := by
      rw [FS.read, hfiles (Save c fs).1 rfl, hfile]
      simp [List.lookup]
    have hd : decodeCassette (marshalCassette c) (New name) =
        ({ New name with Version := c.Version, Interactions := c.Interactions },
          none) :=
      decodeCassette_marshal c (New name)
    have hf : (New name).File = name ++ ".json" := rfl
    simp only [Load]
    rw [hf, hread]
    simp only [New] at hd
    simp [unmarshal, hd, New]
  · intro c₂ h1 h2
    simp [marshalCassette, h1, h2]

/-- C5 witness: round-trip of the concrete one-interaction cassette
through an empty filesystem. -/
theorem save_load_roundtrip_witness :
    (Save exCassette ⟨[], []⟩).2 = none ∧
    (∃ c', Load (Save exCassette ⟨[], []⟩).1 "fixtures/example" =
        (some c', none) ∧
      c'.Version = exCassette.Version ∧
      c'.Interactions = exCassette.Interactions ∧
      c'.Name = "fixtures/example" ∧
      c'.File = "fixtures/example" ++ ".json" ∧
      c'.Matcher = DefaultMatcher) ∧
    topKeys (marshalCassette exCassette) = ["version", "interactions"] ∧
    (∀ c₂ : Cassette, c₂.Version = exCassette.Version →
      c₂.Interactions = exCassette.Interactions →
      marshalCassette c₂ = marshalCassette exCassette) :=
  save_load_roundtrip exCassette ⟨[], []⟩ "fixtures/example" rfl (by decide)

/-- C8: whenever `Load` returns a cassette (with or without a decode
error), that cassette's Matcher is the default matcher: the document's
fields are decoded only into `Version` and `Interactions` (the Matcher
field carries the tag that excludes it from serialization), so a custom
Matcher in effect before a reload is never restored. -/
theorem load_matcher_is_default (fs : FS) (name : String) (c : Cassette)
    (h : (Load fs name).1 = some c) : c.Matcher = DefaultMatcher := by
  simp only [Load] at h
  cases hr : fs.read (New name).File with
  | none => rw [hr] at h; simp at h
  | some b =>
    rw [hr] at h
    simp only [Option.some.injEq] at h
    rw [← h]
    exact (unmarshal_untagged b (New name)).2.2

/-- C8 witness: the cassette loaded from the version-2 fixture carries the
default matcher. -/
theorem load_matcher_is_default_witness :
    ({ New "f" with Version := 2 } : Cassette).Matcher = DefaultMatcher :=
  load_matcher_is_default fsVersion2 "f" { New "f" with Version := 2 } rfl

/-- C10: when the fixture file is readable but its contents fail JSON
decoding, `Load` returns a non-nil cassette together with the error; the
returned cassette keeps the freshly created name, derived path and
default Matcher (only `Version` and `Interactions` can have been touched
by the failed decode).  By contrast, on a read failure `Load` returns nil
and the read error. -/
theorem load_decode_failure_returns_cassette (fs : FS) (name : String)
    (b : Bytes) (hb : fs.read (name ++ ".json") = some b)
    (he : (unmarshal b (New name)).2 ≠ none) :
    (∃ c e, Load fs name = (some c, some e) ∧ c.Name = name ∧
      c.File = name ++ ".json" ∧ c.Matcher = DefaultMatcher) ∧
    (∀ fs' : FS, fs'.read (name ++ ".json") = none →
      Load fs' name = (none, some .ReadFileError)) := by
  constructor
  · refine ⟨(unmarshal b (New name)).1, ?_⟩
    obtain ⟨e, he'⟩ : ∃ e, (unmarshal b (New name)).2 = some e := by
      cases h2 : (unmarshal b (New name)).2 with
      | none => exact absurd h2 he
      | some e => exact ⟨e, rfl⟩
    refine ⟨e, ?_, ?_, ?_, ?_⟩
    · have hf : (New name).File = name ++ ".json" := rfl
      simp only [Load]
      rw [hf, hb]
      simp [he']
    · exact (unmarshal_untagged b (New name)).1
    · exact (unmarshal_untagged b (New name)).2.1
    · exact (unmarshal_untagged b (New name)).2.2
  · intro fs' h'
    have hf : (New name).File = name ++ ".json" := rfl
    simp only [Load]
    rw [hf, h']

/-- C10 witness: loading the unreadable-as-JSON fixture returns a cassette
with the fresh name, path and default matcher alongside the error, and a
missing file returns nil. -/
theorem load_decode_failure_returns_cassette_witness :
    (∃ c e, Load fsGarbage "f" = (some c, some e) ∧ c.Name = "f" ∧
      c.File = "f" ++ ".json" ∧ c.Matcher = DefaultMatcher) ∧
    (∀ fs' : FS, fs'.read ("f" ++ ".json") = none →
      Load fs' "f" = (none, some .ReadFileError)) :=
  load_decode_failure_returns_cassette fsGarbage "f"
    (.invalid "not json at all") rfl (by simp [unmarshal])

end VCR
